import Mathlib

/-
Verification development for the AskStashServer backend (FastAPI + Supabase +
Gemini).  The Python sources routes.py and dependencies.py are shallowly
embedded here:

  * pure helpers (password hashing, JWT issue/verify, text extraction,
    context assembly) become Lean functions;
  * the external libraries (hashlib, PyJWT, filetype, PyPDF2, python-docx,
    PIL/Gemini vision, bytes.decode) are modeled either concretely
    (hashlib.sha256 is implemented bit-for-bit; latin-1 decoding is the
    identity on byte values) or as an environment of fallible oracles
    (ExtractEnv), where a Python exception is an Except.error;
  * the Supabase tables become lists inside a Db record, and each route
    handler becomes a function from its inputs and the current Db to an
    Except HTTPError response together with the next Db;
  * Python "raise HTTPException(...)" inside a handler body is an
    Except.error; the "except Exception as e: raise HTTPException(500,
    str(e))" wrapper around every handler body is routeWrap, which also
    catches the HTTPExceptions raised by the body itself, exactly as the
    Python except clause does (fastapi.HTTPException is an Exception);
  * datetimes are integer timestamps, DB-assigned ids are explicit
    parameters.
-/

/-! ## hashlib.sha256 (dependencies.hash_password / verify_password)

The digest is computed exactly as SHA-256 prescribes; the round constants
and initial hash values are derived from the first 64 primes, as in the
standard.  The model was validated against the published digests of ""
and "abc". -/

/-- integer cube root by bisection (used only to derive the SHA-256
round constants from the primes, as FIPS 180-4 defines them). -/
def icbrtGo (n : Nat) : Nat → Nat → Nat → Nat
  | 0, lo, _ => lo
  | fuel+1, lo, hi =>
    let mid := (lo + hi) / 2
    if mid = lo then lo
    else if mid ^ 3 ≤ n then icbrtGo n fuel mid hi else icbrtGo n fuel lo mid

def icbrt (n : Nat) : Nat := icbrtGo n 200 0 (n + 2)

def sha256primes : List Nat :=
  [2, 3, 5, 7, 11, 13, 17, 19, 23, 29, 31, 37, 41, 43, 47, 53,
   59, 61, 67, 71, 73, 79, 83, 89, 97, 101, 103, 107, 109, 113, 127, 131,
   137, 139, 149, 151, 157, 163, 167, 173, 179, 181, 191, 193, 197, 199, 211, 223,
   227, 229, 233, 239, 241, 251, 257, 263, 269, 271, 277, 281, 283, 293, 307, 311]

def sha256K : List Nat := sha256primes.map (fun p => icbrt (p * 2 ^ 96) % 2 ^ 32)

def sha256Hinit : List Nat := (sha256primes.take 8).map (fun p => Nat.sqrt (p * 2 ^ 64) % 2 ^ 32)

def M32 : Nat := 4294967296

def ror32 (x n : Nat) : Nat := ((x >>> n) ||| (x <<< (32 - n))) % M32

def ssig0 (x : Nat) : Nat := (ror32 x 7) ^^^ (ror32 x 18) ^^^ (x >>> 3)
def ssig1 (x : Nat) : Nat := (ror32 x 17) ^^^ (ror32 x 19) ^^^ (x >>> 10)
def bsig0 (x : Nat) : Nat := (ror32 x 2) ^^^ (ror32 x 13) ^^^ (ror32 x 22)
def bsig1 (x : Nat) : Nat := (ror32 x 6) ^^^ (ror32 x 11) ^^^ (ror32 x 25)

def bytesToWords : List Nat → List Nat
  | b0 :: b1 :: b2 :: b3 :: rest => (((b0 * 256 + b1) * 256 + b2) * 256 + b3) :: bytesToWords rest
  | _ => []

def extendLoop : Nat → List Nat → List Nat
  | 0, w => w
  | n+1, w =>
    let t := w.length
    let nw := (ssig1 (w.getD (t - 2) 0) + w.getD (t - 7) 0 +
               ssig0 (w.getD (t - 15) 0) + w.getD (t - 16) 0) % M32
    extendLoop n (w ++ [nw])

def extendW (w : List Nat) : List Nat := extendLoop 48 w

structure Sha256St where
  a : Nat
  b : Nat
  c : Nat
  d : Nat
  e : Nat
  f : Nat
  g : Nat
  h : Nat

def roundStep (st : Sha256St) (kw : Nat × Nat) : Sha256St :=
  let ch := (st.e &&& st.f) ^^^ ((st.e ^^^ 4294967295) &&& st.g)
  let maj := (st.a &&& st.b) ^^^ (st.a &&& st.c) ^^^ (st.b &&& st.c)
  let t1 := (st.h + bsig1 st.e + ch + kw.1 + kw.2) % M32
  let t2 := (bsig0 st.a + maj) % M32
  ⟨(t1 + t2) % M32, st.a, st.b, st.c, (st.d + t1) % M32, st.e, st.f, st.g⟩

def stList (st : Sha256St) : List Nat := [st.a, st.b, st.c, st.d, st.e, st.f, st.g, st.h]

def compressBlock (hv : List Nat) (block : List Nat) : List Nat :=
  let w := extendW (bytesToWords block)
  let st0 : Sha256St :=
    ⟨hv.getD 0 0, hv.getD 1 0, hv.getD 2 0, hv.getD 3 0,
     hv.getD 4 0, hv.getD 5 0, hv.getD 6 0, hv.getD 7 0⟩
  let stf := (sha256K.zip w).foldl roundStep st0
  (hv.zip (stList stf)).map (fun p => (p.1 + p.2) % M32)

def beBytes : Nat → Nat → List Nat
  | 0, _ => []
  | k+1, n => ((n >>> (8 * k)) % 256) :: beBytes k n

def chunks64 (l : List Nat) : List (List Nat) :=
  if l = [] then [] else l.take 64 :: chunks64 (l.drop 64)
termination_by l.length
decreasing_by
  simp only [List.length_drop]
  have hne : l.length ≠ 0 := by
    intro h
    exact (by assumption : l ≠ []) (List.eq_nil_of_length_eq_zero h)
  omega

def sha256Pad (bs : List Nat) : List Nat :=
  bs ++ 128 :: List.replicate ((119 - bs.length % 64) % 64) 0 ++ beBytes 8 (8 * bs.length)

def sha256Words (bs : List Nat) : List Nat :=
  (chunks64 (sha256Pad bs)).foldl compressBlock sha256Hinit

/-- digest of a byte string, read as one 256-bit natural number. -/
def sha256Nat (bs : List Nat) : Nat :=
  (sha256Words bs).foldl (fun a w => a * M32 + w) 0

def hexDigit (n : Nat) : Char := if n < 10 then Char.ofNat (48 + n) else Char.ofNat (87 + n)

def hexChars : Nat → Nat → List Char
  | 0, _ => []
  | k+1, n => hexChars k (n / 16) ++ [hexDigit (n % 16)]

/-- fixed-width lowercase hex rendering, as hexdigest() produces. -/
def natToHex (k n : Nat) : String := String.mk (hexChars k n)

def utf8EncodeChar (c : Char) : List Nat :=
  let n := c.toNat
  if n < 128 then [n]
  else if n < 2048 then [192 + n / 64, 128 + n % 64]
  else if n < 65536 then [224 + n / 4096, 128 + (n / 64) % 64, 128 + n % 64]
  else [240 + n / 262144, 128 + (n / 4096) % 64, 128 + (n / 64) % 64, 128 + n % 64]

def utf8Encode (s : String) : List Nat := s.data.flatMap utf8EncodeChar

/-- dependencies.hash_password: hashlib.sha256(password.encode()).hexdigest(). -/
def hash_password (password : String) : String :=
  natToHex 64 (sha256Nat (utf8Encode password))

/-- dependencies.verify_password: hash_password(plain) == hashed. -/
def verify_password (plain_password : String) (hashed_password : String) : Bool :=
  hash_password plain_password == hashed_password

/-! ## PyJWT and the token helpers
(dependencies.create_access_token, routes.get_current_user_id)

A token value is either a well-formed JWT (its payload plus the key it was
signed with) or an undecodable string.  PyJWT's decode first rejects
malformed input and bad signatures (PyJWTError / InvalidSignatureError),
and only then checks the exp claim (ExpiredSignatureError); the model
keeps that order. -/

def SECRET_KEY : String := "askstash-secret-key"

structure JwtPayload where
  user_id : Option Int
  exp : Int
deriving DecidableEq

inductive TokenVal where
  | signed (payload : JwtPayload) (key : String)
  | malformed (raw : String)
deriving DecidableEq

inductive JwtError where
  | expiredSignatureError
  | pyJWTError
deriving DecidableEq

def jwt_decode (tok : TokenVal) (key : String) (now : Int) : Except JwtError JwtPayload :=
  match tok with
  | .malformed _ => .error .pyJWTError
  | .signed payload sigKey =>
    if sigKey ≠ key then .error .pyJWTError
    else if payload.exp ≤ now then .error .expiredSignatureError
    else .ok payload

/-- dependencies.create_access_token.  Python tests the timedelta with
"if expires_delta:", and a zero timedelta is falsy, so both None and a
zero duration fall back to the default 15 minutes. -/
def create_access_token (data_user_id : Option Int) (now : Int) (expires_delta : Option Int) : TokenVal :=
  let expire : Int :=
    match expires_delta with
    | some d => if d ≠ 0 then now + d else now + 15 * 60
    | none => now + 15 * 60
  .signed ⟨data_user_id, expire⟩ SECRET_KEY

/-- distinct 401 responses of routes.get_current_user_id:
"Token is missing" / "Token has expired" / "Could not validate credentials". -/
inductive AuthError where
  | Unauthenticated
  | TokenExpired
  | InvalidToken
deriving DecidableEq

/-- routes.get_current_user_id.  This dependency runs outside the
handlers' try blocks, so its HTTPExceptions reach the client unchanged. -/
def get_current_user_id (token : Option TokenVal) (now : Int) : Except AuthError Int :=
  match token with
  | none => .error .Unauthenticated
  | some tok =>
    match jwt_decode tok SECRET_KEY now with
    | .error .expiredSignatureError => .error .TokenExpired
    | .error .pyJWTError => .error .InvalidToken
    | .ok payload =>
      match payload.user_id with
      | none => .error .InvalidToken
      | some uid => .ok uid

/-! ## dependencies.extract_text_from_file

The third-party parsers are an environment of oracles; each oracle
returns Except, where Except.error is a raised Python exception with its
message.  latin-1 decoding with errors="ignore" is total and concrete:
every byte is its own code point. -/

structure DocxModel where
  paragraphs : List String
  tables : List (List (List String))
deriving DecidableEq

inductive DecodeErr where
  | unicodeDecodeError
  | otherError (msg : String)
deriving DecidableEq

structure ExtractEnv where
  guess : List Nat → Except String (Option String)
  pdfPages : List Nat → Except String (List (Option String))
  docxParse : List Nat → Except String DocxModel
  vision : List Nat → Except String String
  decodeUtf8 : List Nat → Except DecodeErr String

/-! Python's string primitives (strip, lower, split, join, containment,
startswith, slicing) are reimplemented structurally over the character
list so that every definition evaluates on concrete inputs. -/

def isPySpace (c : Char) : Bool :=
  c == ' ' || c == '\t' || c == '\n' || c == '\r' || c == '\x0b' || c == '\x0c'

/-- str.strip(): whitespace removed from both ends. -/
def pyStrip (s : String) : String :=
  String.mk (((s.data.dropWhile isPySpace).reverse.dropWhile isPySpace).reverse)

/-- the "c in s" membership test on a single character. -/
def strContains (s : String) (c : Char) : Bool := s.data.contains c

def beginsWithChars : List Char → List Char → Bool
  | [], _ => true
  | _ :: _, [] => false
  | a :: as, b :: bs => a == b && beginsWithChars as bs

/-- str.startswith(pre). -/
def strBeginsWith (s pre : String) : Bool := beginsWithChars pre.data s.data

/-- characters after the last dot of an already-lowercased name. -/
def extSegment : List Char → List Char → List Char
  | [], acc => acc.reverse
  | x :: rest, acc => if x == '.' then extSegment rest [] else extSegment rest (x :: acc)

/-- str.join(parts) with separator sep. -/
def pyJoin (sep : String) : List String → String
  | [] => ""
  | [s] => s
  | s :: rest => s ++ sep ++ pyJoin sep rest

/-- slicing s[:n] by code points. -/
def pyTake (s : String) (n : Nat) : String := String.mk (s.data.take n)

/-- filename.lower().split(".")[-1] if "." in filename else "". -/
def fileExtension (filename : String) : String :=
  if strContains filename '.' then String.mk (extSegment (filename.data.map Char.toLower) [])
  else ""

def latin1Decode (bs : List Nat) : String := String.mk (bs.map (fun b => Char.ofNat (b % 256)))

/-- enumerate-and-filter loop of the PDF branch: one part per page whose
extracted text is non-None and non-blank, tagged with position i+1. -/
def pdfParts : List (Option String) → Nat → List String
  | [], _ => []
  | p :: rest, i =>
    (match p with
     | some t => if pyStrip t ≠ "" then ["\n--- Page " ++ toString (i + 1) ++ " ---\n" ++ t ++ "\n"] else []
     | none => []) ++ pdfParts rest (i + 1)

def pdfRender (pages : List (Option String)) : String :=
  pyStrip (pyJoin "" (pdfParts pages 0))

/-- docx branch: non-blank paragraphs, then every table's rows' non-blank
cells, joined by newlines and stripped. -/
def docxRender (d : DocxModel) : String :=
  let ps := d.paragraphs.filter (fun t => !(pyStrip t == ""))
  let cs := d.tables.flatMap (fun tb => tb.flatMap (fun row => row.filter (fun c => !(pyStrip c == ""))))
  pyStrip (pyJoin "\n" (ps ++ cs))

def textExts : List String := ["txt", "md", "csv", "json", "xml", "html", "htm", "rtf"]

def imageExts : List String := ["jpg", "jpeg", "png", "gif", "bmp", "webp", "tiff"]

/-- dispatch chain of extract_text_from_file after the type sniff.  Every
branch returns: each format branch wraps its library calls in its own
try/except that converts the exception to bracketed text, the legacy-doc
and unsupported branches are plain returns, and the latin-1 fallback of
the text branch is total. -/
def extractDispatch (env : ExtractEnv) (content : List Nat) (filename : String)
    (file_type file_extension : String) : String :=
  if file_type == "application/pdf" || file_extension == "pdf" then
    match env.pdfPages content with
    | .ok pages => pdfRender pages
    | .error e => "[Error reading PDF: " ++ e ++ "]"
  else if file_type == "application/vnd.openxmlformats-officedocument.wordprocessingml.document" ||
          file_extension == "docx" then
    match env.docxParse content with
    | .ok d => docxRender d
    | .error e => "[Error reading Word document: " ++ e ++ "]"
  else if file_extension == "doc" then
    "[Legacy Word document (.doc) detected. Please convert to .docx format for better text extraction. Filename: " ++ filename ++ "]"
  else if strBeginsWith file_type "text/" || textExts.contains file_extension then
    match env.decodeUtf8 content with
    | .ok s => s
    | .error .unicodeDecodeError => latin1Decode content
    | .error (.otherError e) => "[Error reading text file: " ++ e ++ "]"
  else if strBeginsWith file_type "image/" || imageExts.contains file_extension then
    match env.vision content with
    | .ok t => "[Image content from " ++ filename ++ "]\n" ++ t
    | .error e => "[Image content from " ++ filename ++ " - Vision processing error: " ++ e ++ "]"
  else
    "[Unsupported file type: " ++ file_type ++ " (extension: ." ++ file_extension ++ ").]"

/-- body of extract_text_from_file without its outermost try/except; an
Except.error here is an exception that escaped every inner handler,
which in this model only the type-sniffing call can produce. -/
def extractBody (env : ExtractEnv) (content : List Nat) (filename : String) : Except String String :=
  match env.guess content with
  | .error e => .error e
  | .ok kind =>
    .ok (extractDispatch env content filename (kind.getD "application/octet-stream") (fileExtension filename))

/-- dependencies.extract_text_from_file: the body with its top-level
catch-all converting any escaped exception into bracketed text. -/
def extract_text_from_file (env : ExtractEnv) (content : List Nat) (filename : String) : String :=
  match extractBody env content filename with
  | .ok s => s
  | .error e => "[Error extracting text from " ++ filename ++ ": " ++ e ++ "]"

/-! ## the Supabase-backed data model and the route handlers -/

structure UserRec where
  id : Int
  email : String
  password_hash : String
  full_name : String
  created_at : Int
deriving DecidableEq

structure DocRec where
  id : Int
  user_id : Int
  filename : String
  content : String
  file_type : String
  created_at : Int
deriving DecidableEq

structure ChatTurnRec where
  id : Int
  user_id : Int
  message : String
  response : String
  context_documents : String
  created_at : Int
deriving DecidableEq

structure Db where
  users : List UserRec
  documents : List DocRec
  chat_history : List ChatTurnRec
deriving DecidableEq

structure HTTPError where
  status : Nat
  detail : String
deriving DecidableEq

/-- starlette's HTTPException.__str__: "{status_code}: {detail}". -/
def strOfHTTPError (e : HTTPError) : String := toString e.status ++ ": " ++ e.detail

/-- the per-handler "except Exception as e: raise HTTPException(500,
str(e))".  fastapi.HTTPException derives from Exception, so this clause
also catches the HTTPExceptions the body itself raised and re-raises
them with status 500 and detail str(e). -/
def routeWrap {α : Type} (body : Except HTTPError α) : Except HTTPError α :=
  match body with
  | .ok a => .ok a
  | .error e => .error ⟨500, strOfHTTPError e⟩

def pyFalsyStr : Option String → Bool
  | none => true
  | some s => s == ""

structure UserCreate where
  email : String
  password : String
  full_name : String
deriving DecidableEq

structure UserLogin where
  email : String
  password : String
deriving DecidableEq

structure TokenOut where
  access_token : TokenVal
  token_type : String
  user : UserRec
deriving DecidableEq

/-- routes.register.  The model's insert always succeeds (the "Failed to
create user" branch needs a failing Supabase call, which the Db model
does not produce); newId is the id the database assigns. -/
def register (db : Db) (user : UserCreate) (now newId : Int) : Except HTTPError TokenOut × Db :=
  let existing := db.users.filter (fun u => u.email == user.email)
  if !existing.isEmpty then
    (routeWrap (.error ⟨400, "Email already registered"⟩), db)
  else
    let u : UserRec := ⟨newId, user.email, hash_password user.password, user.full_name, now⟩
    let db' : Db := { db with users := db.users ++ [u] }
    (routeWrap (.ok ⟨create_access_token (some newId) now none, "bearer", u⟩), db')

/-- routes.login. -/
def login (db : Db) (form_data : UserLogin) (now : Int) : Except HTTPError TokenOut :=
  match db.users.filter (fun u => u.email == form_data.email) with
  | [] => routeWrap (.error ⟨401, "Invalid credentials"⟩)
  | user_data :: _ =>
    if !verify_password form_data.password user_data.password_hash then
      routeWrap (.error ⟨401, "Invalid credentials"⟩)
    else
      routeWrap (.ok ⟨create_access_token (some user_data.id) now none, "bearer", user_data⟩)

def lstripDotSlash (s : String) : String :=
  String.mk (s.data.dropWhile (fun c => c == '.' || c == '/' || c == '\\'))

def pyStrOr (o : Option String) (dflt : String) : String :=
  match o with
  | none => dflt
  | some s => if s == "" then dflt else s

structure UploadResponse where
  message : String
  document_id : Int
  filename : String
  extracted_text_length : Nat
  file_size : Nat
  text_preview : String
  warning : Option String
deriving DecidableEq

/-- routes.upload_file (after get_current_user_id succeeded with uid). -/
def upload_file (env : ExtractEnv) (db : Db) (file_filename : Option String)
    (content : List Nat) (content_type : Option String) (uid : Int)
    (now newId : Int) : Except HTTPError UploadResponse × Db :=
  let fn := file_filename.getD ""
  if pyFalsyStr file_filename || strContains fn '/' || strContains fn '\\' then
    (routeWrap (.error ⟨400, "Invalid filename"⟩), db)
  else
    let filename := lstripDotSlash fn
    let file_size := content.length
    if file_size > 10 * 1024 * 1024 then
      (routeWrap (.error ⟨400, "File size exceeds 10MB limit."⟩), db)
    else if content.isEmpty then
      (routeWrap (.error ⟨400, "Empty file uploaded."⟩), db)
    else
      let extracted_text := extract_text_from_file env content filename
      let warning : Option String :=
        if strBeginsWith extracted_text "[Error" || (pyStrip extracted_text).length < 10 then
          some "Text extraction may have had issues. Please verify."
        else none
      let doc : DocRec := ⟨newId, uid, filename, extracted_text, pyStrOr content_type "unknown", now⟩
      let db' : Db := { db with documents := db.documents ++ [doc] }
      let preview :=
        if extracted_text.length > 200 then pyTake extracted_text 200 ++ "..." else extracted_text
      (routeWrap (.ok ⟨"File uploaded successfully", newId, filename, extracted_text.length,
                       file_size, preview, warning⟩), db')

/-- routes.get_document_content. -/
def get_document_content (db : Db) (document_id : Int) (uid : Int) : Except HTTPError DocRec :=
  match db.documents.filter (fun d => d.id == document_id && d.user_id == uid) with
  | [] => routeWrap (.error ⟨404, "Document not found"⟩)
  | doc :: _ => routeWrap (.ok doc)

/-- routes.delete_document: a select guard on (id, user_id), then a
delete filtered by the same two equalities. -/
def delete_document (db : Db) (document_id : Int) (uid : Int) : Except HTTPError Unit × Db :=
  let verify := db.documents.filter (fun d => d.id == document_id && d.user_id == uid)
  if verify.isEmpty then
    (routeWrap (.error ⟨404, "Document not found"⟩), db)
  else
    (routeWrap (.ok ()),
     { db with documents := db.documents.filter (fun d => !(d.id == document_id && d.user_id == uid)) })

structure ChatRequestM where
  message : String
  selected_documents : List Int
  use_all_documents : Bool
deriving DecidableEq

structure ChatResponseM where
  response : String
  context_used : Bool
  context_sources : List (Int × String)
deriving DecidableEq

/-- context_parts / context_sources loop of routes.chat, one cons per
document in order. -/
def buildContextParts : List DocRec → List String × List (Int × String)
  | [] => ([], [])
  | d :: rest =>
    let (ps, ss) := buildContextParts rest
    (("--- Document: " ++ d.filename ++ " ---\n" ++ d.content) :: ps, (d.id, d.filename) :: ss)

/-- json.dumps of the context_sources list of dicts. -/
def jsonSources (ss : List (Int × String)) : String :=
  "[" ++ pyJoin ", "
    (ss.map (fun s => "\x7b\"id\": " ++ toString s.1 ++ ", \"filename\": \"" ++ s.2 ++ "\"\x7d")) ++ "]"

/-- documents_res of routes.chat: the query is always filtered by the
caller's user_id; use_all_documents selects all of the caller's rows,
a non-empty selected_documents list additionally filters by id
membership, and otherwise no query runs. -/
def chatSelectedDocs (db : Db) (uid : Int) (req : ChatRequestM) : Option (List DocRec) :=
  let base := db.documents.filter (fun d => d.user_id == uid)
  if req.use_all_documents then some base
  else if !req.selected_documents.isEmpty then
    some (base.filter (fun d => req.selected_documents.contains d.id))
  else none

/-- context string assembled by routes.chat ("" when no rows came back). -/
def chatContextStr (db : Db) (uid : Int) (req : ChatRequestM) : String :=
  match chatSelectedDocs db uid req with
  | some docs =>
    if !docs.isEmpty then pyJoin "\n\n" (buildContextParts docs).1 else ""
  | none => ""

/-- context_sources accumulated by routes.chat. -/
def chatSourcesList (db : Db) (uid : Int) (req : ChatRequestM) : List (Int × String) :=
  match chatSelectedDocs db uid req with
  | some docs => if !docs.isEmpty then (buildContextParts docs).2 else []
  | none => []

/-- routes.chat.  gen is dependencies.generate_response, which never
raises (it has its own catch-all that returns apologetic text), so it is
a total function of (message, context). -/
def chat (gen : String → String → String) (db : Db) (uid : Int) (req : ChatRequestM)
    (now newId : Int) : Except HTTPError ChatResponseM × Db :=
  let srcs := chatSourcesList db uid req
  let response_text := gen req.message (chatContextStr db uid req)
  let turn : ChatTurnRec := ⟨newId, uid, req.message, response_text, jsonSources srcs, now⟩
  let db' : Db := { db with chat_history := db.chat_history ++ [turn] }
  (routeWrap (.ok ⟨response_text, !srcs.isEmpty, srcs⟩), db')

/-- context_sources of a chat result (empty when the route errored). -/
def chatSources (r : Except HTTPError ChatResponseM × Db) : List (Int × String) :=
  match r.1 with
  | .ok resp => resp.context_sources
  | .error _ => []

/-- insertion step for ORDER BY created_at DESC: larger timestamps first. -/
def insertDesc (t : ChatTurnRec) : List ChatTurnRec → List ChatTurnRec
  | [] => [t]
  | h :: rest => if h.created_at ≤ t.created_at then t :: h :: rest else h :: insertDesc t rest

/-- concrete model of the database's ORDER BY created_at DESC (the store
does not specify tie order; insertion sort is one admissible order). -/
def sortDescCreated : List ChatTurnRec → List ChatTurnRec
  | [] => []
  | t :: rest => insertDesc t (sortDescCreated rest)

/-- rows of the chat_history query: filter by owner, order newest-first,
LIMIT 50, then the handler reverses them. -/
def chatHistoryRows (db : Db) (uid : Int) : List ChatTurnRec :=
  (((sortDescCreated (db.chat_history.filter (fun t => t.user_id == uid)))).take 50).reverse

/-- routes.get_chat_history. -/
def get_chat_history (db : Db) (uid : Int) : Except HTTPError (List ChatTurnRec) :=
  routeWrap (.ok (chatHistoryRows db uid))

structure GuestExtractResponse where
  extracted_text : String
  filename : String
  file_size : Nat
  extracted_length : Nat
deriving DecidableEq

/-- routes.guest_extract_text: only the 10MB guard precedes extraction;
there is no emptiness check on this route. -/
def guest_extract_text (env : ExtractEnv) (file_filename : Option String)
    (content : List Nat) : Except HTTPError GuestExtractResponse :=
  let filename := if pyFalsyStr file_filename then "uploaded_file" else file_filename.getD ""
  let file_size := content.length
  if file_size > 10 * 1024 * 1024 then
    routeWrap (.error ⟨400, "File size exceeds 10MB limit."⟩)
  else
    let extracted_text := extract_text_from_file env content filename
    routeWrap (.ok ⟨extracted_text, filename, file_size, extracted_text.length⟩)

/-! ## auxiliary definitions for the statements below -/

deriving instance DecidableEq for Except

/-- first character of a string, used to state the "all failure text is
bracketed" contract. -/
def headChar (s : String) : Option Char := s.data.head?

/-- specification-side view of the PDF page loop: which (page number,
text) blocks are kept.  Page numbers are original positions plus one. -/
def pdfKeep (p : Nat × Option String) : Option (Nat × String) :=
  match p.2 with
  | some t => if pyStrip t ≠ "" then some (p.1 + 1, t) else none
  | none => none

/-- delimiter block rendered for one kept page. -/
def pdfFmt (b : Nat × String) : String :=
  "\n--- Page " ++ toString b.1 ++ " ---\n" ++ b.2 ++ "\n"

/-- specification-side list of kept page blocks of a PDF. -/
def pdfBlocksSpec (pages : List (Option String)) : List (Nat × String) :=
  pages.enum.filterMap pdfKeep

/-- environment whose sniffer reports no match and whose UTF-8 decoder
always succeeds (latin-1 view of the bytes). -/
def envText : ExtractEnv :=
  ⟨fun _ => .ok none, fun _ => .error "no pdf", fun _ => .error "no docx",
   fun _ => .error "no vision", fun bs => .ok (latin1Decode bs)⟩

/-- environment for a sniffed 3-page PDF with text on pages 1 and 3 only
(page 2 is whitespace). -/
def envPdf3 : ExtractEnv :=
  ⟨fun _ => .ok (some "application/pdf"),
   fun _ => .ok [some "Alpha", some " ", some "Gamma"],
   fun _ => .error "x", fun _ => .error "x", fun _ => .error .unicodeDecodeError⟩

/-- environment whose type sniffer itself raises. -/
def envBoom : ExtractEnv :=
  ⟨fun _ => .error "boom", fun _ => .error "x", fun _ => .error "x",
   fun _ => .error "x", fun _ => .error .unicodeDecodeError⟩

/-- database with one registered user, for the duplicate-email request. -/
def dbDup : Db := ⟨[⟨1, "a@b.c", "h", "Alice", 0⟩], [], []⟩

/-- database with one document owned by user 1. -/
def dbC2 : Db := ⟨[], [⟨1, 1, "a.txt", "X", "text/plain", 0⟩], []⟩

/-- database with two documents owned by user 1. -/
def dbDel : Db := ⟨[], [⟨1, 1, "a.txt", "X", "t", 0⟩, ⟨2, 1, "b.txt", "Y", "t", 0⟩], []⟩

/-- database with one chat turn of user 1. -/
def dbH : Db := ⟨[], [], [⟨1, 1, "m", "r", "[]", 5⟩]⟩

/-! ## helper lemmas -/

theorem headChar_append (c : Char) (s t : String) (h : headChar s = some c) :
    headChar (s ++ t) = some c := by
  unfold headChar at h ⊢
  rw [String.data_append, List.head?_append, h]
  rfl

theorem buildContextParts_fst (docs : List DocRec) :
    (buildContextParts docs).1 =
      docs.map (fun d => "--- Document: " ++ d.filename ++ " ---\n" ++ d.content) := by
  induction docs with
  | nil => rfl
  | cons d rest ih => simp [buildContextParts, ih]

theorem buildContextParts_snd (docs : List DocRec) :
    (buildContextParts docs).2 = docs.map (fun d => (d.id, d.filename)) := by
  induction docs with
  | nil => rfl
  | cons d rest ih => simp [buildContextParts, ih]

theorem foldl_base_bound {B : Nat} :
    ∀ (l : List Nat) (a k : Nat), (∀ x ∈ l, x < B) → a < B ^ k →
      l.foldl (fun a w => a * B + w) a < B ^ (k + l.length)
  | [], a, k, _, ha => by simpa using ha
  | x :: l, a, k, hl, ha => by
    have hx : x < B := hl x (List.mem_cons_self x l)
    have hstep : a * B + x < B ^ (k + 1) := by
      calc a * B + x < (a + 1) * B := by nlinarith
        _ ≤ B ^ k * B := Nat.mul_le_mul_right B ha
        _ = B ^ (k + 1) := by ring
    have h := foldl_base_bound l (a * B + x) (k + 1)
      (fun y hy => hl y (List.mem_cons_of_mem x hy)) hstep
    have he : k + 1 + l.length = k + (x :: l).length := by
      simp [List.length_cons]
      omega
    rw [he] at h
    exact h

theorem compressBlock_lt (hv block : List Nat) : ∀ x ∈ compressBlock hv block, x < M32 := by
  intro x hx
  unfold compressBlock at hx
  simp only [List.mem_map] at hx
  obtain ⟨p, _, rfl⟩ := hx
  exact Nat.mod_lt _ (by norm_num [M32])

theorem compressBlock_len (hv block : List Nat) (h : hv.length = 8) :
    (compressBlock hv block).length = 8 := by
  simp [compressBlock, stList, h]

theorem foldl_compress_inv :
    ∀ (blocks : List (List Nat)) (hv : List Nat), hv.length = 8 → (∀ x ∈ hv, x < M32) →
      (blocks.foldl compressBlock hv).length = 8 ∧ ∀ x ∈ blocks.foldl compressBlock hv, x < M32
  | [], _, hlen, hlt => ⟨hlen, hlt⟩
  | b :: blocks, hv, hlen, hlt => by
    simp only [List.foldl_cons]
    exact foldl_compress_inv blocks (compressBlock hv b) (compressBlock_len hv b hlen)
      (compressBlock_lt hv b)

theorem sha256Hinit_len : sha256Hinit.length = 8 := rfl

theorem sha256Hinit_lt : ∀ x ∈ sha256Hinit, x < M32 := by
  intro x hx
  simp only [sha256Hinit, List.mem_map] at hx
  obtain ⟨p, _, rfl⟩ := hx
  have h2 : (0:Nat) < 2 ^ 32 := by norm_num
  have := Nat.mod_lt (Nat.sqrt (p * 2 ^ 64)) h2
  simpa [M32] using this

theorem sha256Words_inv (bs : List Nat) :
    (sha256Words bs).length = 8 ∧ ∀ x ∈ sha256Words bs, x < M32 :=
  foldl_compress_inv _ sha256Hinit sha256Hinit_len sha256Hinit_lt

theorem sha256Nat_lt (bs : List Nat) : sha256Nat bs < 2 ^ 256 := by
  obtain ⟨hlen, hlt⟩ := sha256Words_inv bs
  have h := foldl_base_bound (sha256Words bs) 0 0 hlt (show (0:Nat) < M32 ^ 0 by norm_num)
  rw [hlen] at h
  have he : M32 ^ (0 + 8) = 2 ^ 256 := by norm_num [M32]
  rw [he] at h
  exact h

/-! ## Claim C6 -/

/-- Claim C6 fails as stated: its second half asserts that distinct
passwords never cross-verify, which is injectivity of the SHA-256 hex
digest on all of String — impossible, because String is infinite while
digests range over the 2^256 values.  The pigeonhole argument below
refutes the universally quantified claim (no concrete collision is
exhibited, and none is known; the negation is proved abstractly). -/
theorem C6_counterexample :
    ¬ (∀ p1 p2 : String, p1 ≠ p2 → verify_password p2 (hash_password p1) = false) := by
  intro hinj
  obtain ⟨x, y, hxy, hfeq⟩ :=
    Finite.exists_ne_map_eq_of_infinite
      (fun p : String => (⟨sha256Nat (utf8Encode p), sha256Nat_lt _⟩ : Fin (2 ^ 256)))
  have hdig : sha256Nat (utf8Encode x) = sha256Nat (utf8Encode y) := congrArg Fin.val hfeq
  have hhash : hash_password x = hash_password y := by
    unfold hash_password
    rw [hdig]
  have hv := hinj x y hxy
  unfold verify_password at hv
  rw [hhash] at hv
  simp at hv

/-- Claim C6 (amended): verifying p against hash(p) is always true, and
verifying p2 against hash(p1) is false exactly when the two passwords'
digests differ (for distinct passwords with colliding digests — which
exist by pigeonhole — verification succeeds). -/
theorem C6_hash_verify :
    (∀ p : String, verify_password p (hash_password p) = true) ∧
    (∀ p1 p2 : String,
      verify_password p2 (hash_password p1) = false ↔ hash_password p2 ≠ hash_password p1) := by
  constructor
  · intro p
    simp [verify_password]
  · intro p1 p2
    simp [verify_password, beq_eq_false_iff_ne]

/-! ## Claim C5 -/

/-- Claim C5 fails in its ttl=0 particular: create_access_token tests the
duration with Python truthiness, and a zero timedelta is falsy, so a
token issued with ttl=0 gets the default 15-minute expiry and verifies
successfully immediately after issuance (the claim says it fails with
TokenExpired).  Concretely, a ttl=0 token for user 7 issued at time 1000
verifies fine at time 1000. -/
theorem C5_counterexample :
    get_current_user_id (some (create_access_token (some 7) 1000 (some 0))) 1000 = .ok 7 := by
  decide

/-- Claim C5 (amended): verification fails in exactly one of the three
categories — Unauthenticated when the token is absent, TokenExpired when
a correctly signed token's stamped expiry is not in the future, and
InvalidToken for a wrong signing key, an undecodable token, or a missing
user_id claim; a token issued with a nonzero ttl d fails as TokenExpired
once d has elapsed, a token signed with the wrong key fails as
InvalidToken, but a ttl of zero is falsy and is treated exactly like the
absent default (15 minutes). -/
theorem C5_token_verification :
    (∀ now : Int, get_current_user_id none now = .error .Unauthenticated) ∧
    (∀ (p : JwtPayload) (k : String) (now : Int), k ≠ SECRET_KEY →
       get_current_user_id (some (.signed p k)) now = .error .InvalidToken) ∧
    (∀ (p : JwtPayload) (now : Int), p.exp ≤ now →
       get_current_user_id (some (.signed p SECRET_KEY)) now = .error .TokenExpired) ∧
    (∀ (raw : String) (now : Int),
       get_current_user_id (some (.malformed raw)) now = .error .InvalidToken) ∧
    (∀ (uid now d : Int), d ≠ 0 →
       get_current_user_id (some (create_access_token (some uid) now (some d))) (now + d) =
         .error .TokenExpired) ∧
    (∀ (u : Option Int) (now : Int), create_access_token u now (some 0) = create_access_token u now none) := by
  refine ⟨fun now => rfl, ?_, ?_, fun raw now => rfl, ?_, ?_⟩
  · intro p k now h
    simp [get_current_user_id, jwt_decode, h]
  · intro p now h
    simp [get_current_user_id, jwt_decode, h]
  · intro uid now d hd
    simp [get_current_user_id, jwt_decode, create_access_token, hd]
  · intro u now
    simp [create_access_token]

/-- Witness for C5_token_verification at concrete tokens and times. -/
theorem C5_witness :
    get_current_user_id none 0 = .error .Unauthenticated ∧
    get_current_user_id (some (.signed ⟨some 3, 100⟩ "wrong-key")) 0 = .error .InvalidToken ∧
    get_current_user_id (some (.signed ⟨some 3, 5⟩ SECRET_KEY)) 9 = .error .TokenExpired ∧
    get_current_user_id (some (.malformed "zzz")) 0 = .error .InvalidToken ∧
    get_current_user_id (some (create_access_token (some 3) 50 (some 10))) 60 = .error .TokenExpired ∧
    create_access_token (some 3) 50 (some 0) = create_access_token (some 3) 50 none :=
  ⟨C5_token_verification.1 0,
   C5_token_verification.2.1 ⟨some 3, 100⟩ "wrong-key" 0 (by decide),
   C5_token_verification.2.2.1 ⟨some 3, 5⟩ 9 (by decide),
   C5_token_verification.2.2.2.1 "zzz" 0,
   C5_token_verification.2.2.2.2.1 3 50 10 (by decide),
   C5_token_verification.2.2.2.2.2 (some 3) 50⟩

/-! ## Claim C1 -/

/-- Claim C1 is contradicted by the code: the handlers raise
HTTPException(400/401/404) for the enumerated validation failures, but
each handler's catch-all "except Exception" also catches those
HTTPExceptions (they subclass Exception) and re-raises them as the
internal 500 category with detail str(e).  Registering a duplicate email
therefore reports status 500 with detail "400: Email already registered"
instead of the distinct bad-request category; only the token errors,
raised by the dependency outside the try blocks, keep their 401
category. -/
theorem C1_register_duplicate_email_500 :
    (register dbDup ⟨"a@b.c", "pw", "Al"⟩ 5 2).1 =
      .error ⟨500, "400: Email already registered"⟩ := by
  decide

/-! ## Claim C2 -/

/-- Claim C2 fails as stated: a chat request by user 2 selecting user 1's
document id 1 does not fail with not-found — the route has no not-found
path at all — it answers normally with empty context and no sources. -/
theorem C2_counterexample :
    (chat (fun _ _ => "answer") dbC2 2 ⟨"hi", [1], false⟩ 0 0).1 =
      .ok ⟨"answer", false, []⟩ := by
  decide

/-- every document produced by the chat query belongs to the caller. -/
theorem mem_chatSelectedDocs {db : Db} {uid : Int} {req : ChatRequestM} {docs : List DocRec}
    {d : DocRec} (h : chatSelectedDocs db uid req = some docs) (hd : d ∈ docs) :
    d ∈ db.documents ∧ d.user_id = uid := by
  unfold chatSelectedDocs at h
  split at h
  · injection h with h
    subst h
    obtain ⟨h1, h2⟩ := List.mem_filter.mp hd
    exact ⟨h1, by simpa using h2⟩
  · split at h
    · injection h with h
      subst h
      obtain ⟨hin, _⟩ := List.mem_filter.mp hd
      obtain ⟨h1, h2⟩ := List.mem_filter.mp hin
      exact ⟨h1, by simpa using h2⟩
    · cases h

/-- with use_all_documents off and no selected id owned by the caller,
the chat query returns nothing. -/
theorem chatSelectedDocs_not_owned {db : Db} {uid : Int} {req : ChatRequestM}
    (hall : req.use_all_documents = false)
    (hforall : ∀ d, d ∈ db.documents → d.id ∈ req.selected_documents → d.user_id ≠ uid) :
    ∀ docs, chatSelectedDocs db uid req = some docs → docs = [] := by
  intro docs h
  unfold chatSelectedDocs at h
  split at h
  · rename_i hcond
    rw [hall] at hcond
    exact absurd hcond (by simp)
  · split at h
    · injection h with h
      subst h
      rw [List.filter_eq_nil_iff]
      intro d hd hc
      obtain ⟨h1, h2⟩ := List.mem_filter.mp hd
      exact hforall d h1 (List.elem_iff.mp hc) (by simpa using h2)
    · cases h

/-- Claim C2 (amended): the chat operation never fails with not-found;
the owner filter silently drops documents the caller does not own, so
every provenance source in the answer belongs to a caller-owned
document, and a selection containing only other users' (or nonexistent)
ids — indistinguishable from one another — produces an answer with empty
context sources. -/
theorem C2_chat_ownership :
    (∀ (gen : String → String → String) (db : Db) (uid : Int) (req : ChatRequestM)
       (now newId : Int), (chat gen db uid req now newId).1.isOk = true) ∧
    (∀ gen db uid req now newId s, s ∈ chatSources (chat gen db uid req now newId) →
       ∃ d, d ∈ db.documents ∧ d.user_id = uid ∧ s = (d.id, d.filename)) ∧
    (∀ gen db uid req now newId, req.use_all_documents = false →
       (∀ d, d ∈ db.documents → d.id ∈ req.selected_documents → d.user_id ≠ uid) →
       chatSources (chat gen db uid req now newId) = []) := by
  refine ⟨fun gen db uid req now newId => rfl, ?_, ?_⟩
  · intro gen db uid req now newId s hs
    have hs' : s ∈ chatSourcesList db uid req := hs
    unfold chatSourcesList at hs'
    cases hdocs : chatSelectedDocs db uid req with
    | none => rw [hdocs] at hs'; simp at hs'
    | some docs =>
      rw [hdocs] at hs'
      have hs2 : s ∈ (if !docs.isEmpty then (buildContextParts docs).2 else []) := hs'
      split at hs2
      · rw [buildContextParts_snd] at hs2
        obtain ⟨d, hd, rfl⟩ := List.mem_map.mp hs2
        obtain ⟨h1, h2⟩ := mem_chatSelectedDocs hdocs hd
        exact ⟨d, h1, h2, rfl⟩
      · simp at hs2
  · intro gen db uid req now newId hall hforall
    show chatSourcesList db uid req = []
    unfold chatSourcesList
    cases hdocs : chatSelectedDocs db uid req with
    | none => rfl
    | some docs =>
      have hnil := chatSelectedDocs_not_owned hall hforall docs hdocs
      subst hnil
      rfl

/-- Witness for C2_chat_ownership: user 1's own document is a provenance
source when user 1 chats over all documents, and user 2 selecting only
user 1's document gets no sources. -/
theorem C2_witness :
    (∃ d, d ∈ dbC2.documents ∧ d.user_id = 1 ∧ ((1 : Int), "a.txt") = (d.id, d.filename)) ∧
    chatSources (chat (fun _ _ => "a") dbC2 2 ⟨"m", [1], false⟩ 0 0) = [] :=
  ⟨C2_chat_ownership.2.1 (fun _ _ => "a") dbC2 1 ⟨"m", [], true⟩ 0 0 (1, "a.txt") (by decide),
   C2_chat_ownership.2.2 (fun _ _ => "a") dbC2 2 ⟨"m", [1], false⟩ 0 0 (by decide) (by decide)⟩

/-! ## Claim C3 -/

/-- every branch outcome of the dispatch chain is either a bracketed
string or one of the enumerated clean success shapes. -/
theorem extractDispatch_cases (env : ExtractEnv) (content : List Nat) (filename ft fe : String) :
    headChar (extractDispatch env content filename ft fe) = some '[' ∨
    (∃ pages, env.pdfPages content = .ok pages ∧
       extractDispatch env content filename ft fe = pdfRender pages) ∨
    (∃ d, env.docxParse content = .ok d ∧
       extractDispatch env content filename ft fe = docxRender d) ∨
    (∃ s, env.decodeUtf8 content = .ok s ∧ extractDispatch env content filename ft fe = s) ∨
    extractDispatch env content filename ft fe = latin1Decode content := by
  unfold extractDispatch
  split
  · cases hp : env.pdfPages content with
    | error e =>
      simp only [hp]
      left
      repeat apply headChar_append
      decide
    | ok pages =>
      simp only [hp]
      exact Or.inr (Or.inl ⟨pages, rfl, rfl⟩)
  · split
    · cases hd : env.docxParse content with
      | error e =>
        simp only [hd]
        left
        repeat apply headChar_append
        decide
      | ok d =>
        simp only [hd]
        exact Or.inr (Or.inr (Or.inl ⟨d, rfl, rfl⟩))
    · split
      · left
        repeat apply headChar_append
        decide
      · split
        · cases hu : env.decodeUtf8 content with
          | error de =>
            cases de with
            | unicodeDecodeError =>
              simp only [hu]
              exact Or.inr (Or.inr (Or.inr (Or.inr trivial)))
            | otherError e =>
              simp only [hu]
              left
              repeat apply headChar_append
              decide
          | ok s =>
            simp only [hu]
            exact Or.inr (Or.inr (Or.inr (Or.inl ⟨s, rfl, rfl⟩)))
        · split
          · cases hv : env.vision content with
            | error e =>
              simp only [hv]
              left
              repeat apply headChar_append
              decide
            | ok t =>
              simp only [hv]
              left
              repeat apply headChar_append
              decide
          · left
            repeat apply headChar_append
            decide

/-- Claim C3: extract_text_from_file returns a string for every byte
input and filename and never lets an exception escape — an exception
that passes every inner handler (an Except.error of the body) is caught
at the top level and rendered as bracketed text — and every result is
either one of the clean success shapes (PDF render, docx render, UTF-8
decode, latin-1 fallback) or text beginning with the character [; all
failure paths are in the bracketed case. -/
theorem C3_extract_total_and_bracketed :
    (∀ env content filename e, extractBody env content filename = .error e →
       extract_text_from_file env content filename =
         "[Error extracting text from " ++ filename ++ ": " ++ e ++ "]") ∧
    (∀ env content filename,
       headChar (extract_text_from_file env content filename) = some '[' ∨
       (∃ pages, env.pdfPages content = .ok pages ∧
          extract_text_from_file env content filename = pdfRender pages) ∨
       (∃ d, env.docxParse content = .ok d ∧
          extract_text_from_file env content filename = docxRender d) ∨
       (∃ s, env.decodeUtf8 content = .ok s ∧
          extract_text_from_file env content filename = s) ∨
       extract_text_from_file env content filename = latin1Decode content) := by
  constructor
  · intro env content filename e h
    unfold extract_text_from_file
    rw [h]
  · intro env content filename
    unfold extract_text_from_file extractBody
    cases hg : env.guess content with
    | error e =>
      left
      show headChar ("[Error extracting text from " ++ filename ++ ": " ++ e ++ "]") = some '['
      repeat apply headChar_append
      decide
    | ok kind =>
      exact extractDispatch_cases env content filename (kind.getD "application/octet-stream")
        (fileExtension filename)

/-- Witness for C3_extract_total_and_bracketed: an environment whose
sniffer raises reaches the top-level handler. -/
theorem C3_witness :
    extract_text_from_file envBoom [0] "f.bin" =
      "[Error extracting text from " ++ "f.bin" ++ ": " ++ "boom" ++ "]" :=
  C3_extract_total_and_bracketed.1 envBoom [0] "f.bin" "boom" rfl

/-! ## Claim C4 -/

/-- Claim C4 fails as stated: the guest extraction endpoint does not
reject empty inputs — with no emptiness check, the empty upload goes
straight to the extractor, whose output ("" for an empty text decode)
is returned with success. -/
theorem C4_counterexample :
    guest_extract_text envText (some "a.txt") [] = .ok ⟨"", "a.txt", 0, 0⟩ := by
  decide

/-- Claim C4 (amended): the authenticated upload endpoint rejects
oversized (>10MB) and empty inputs with an error before extraction is
attempted (its result does not depend on the extraction environment,
though the catch-all converts the bad-request into the internal 500
category, see C1); the guest extraction endpoint rejects only oversized
inputs and for every input within the limit — the empty input
included — returns exactly the extractor's output; the extraction
function itself performs no size or emptiness check. -/
theorem C4_size_checks :
    (∀ env db ffn content ct uid now newId,
       pyFalsyStr ffn = false → strContains (ffn.getD "") '/' = false →
       strContains (ffn.getD "") '\\' = false → content.length > 10 * 1024 * 1024 →
       upload_file env db ffn content ct uid now newId =
         (.error ⟨500, "400: File size exceeds 10MB limit."⟩, db)) ∧
    (∀ env db ffn ct uid now newId,
       pyFalsyStr ffn = false → strContains (ffn.getD "") '/' = false →
       strContains (ffn.getD "") '\\' = false →
       upload_file env db ffn [] ct uid now newId =
         (.error ⟨500, "400: Empty file uploaded."⟩, db)) ∧
    (∀ env ffn content, content.length > 10 * 1024 * 1024 →
       guest_extract_text env ffn content = .error ⟨500, "400: File size exceeds 10MB limit."⟩) ∧
    (∀ env ffn content, ¬ content.length > 10 * 1024 * 1024 →
       guest_extract_text env ffn content =
         .ok ⟨extract_text_from_file env content
                (if pyFalsyStr ffn then "uploaded_file" else ffn.getD ""),
              if pyFalsyStr ffn then "uploaded_file" else ffn.getD "",
              content.length,
              (extract_text_from_file env content
                (if pyFalsyStr ffn then "uploaded_file" else ffn.getD "")).length⟩) := by
  refine ⟨?_, ?_, ?_, ?_⟩
  · intro env db ffn content ct uid now newId hf h1 h2 hsize
    simp only [upload_file]
    rw [hf, h1, h2, Bool.or_false, Bool.or_false, if_neg (by decide : ¬ (false = true)),
      if_pos hsize]
    simp only [Prod.mk.injEq]
    exact ⟨by decide, trivial⟩
  · intro env db ffn ct uid now newId hf h1 h2
    simp only [upload_file]
    rw [hf, h1, h2, Bool.or_false, Bool.or_false, if_neg (by decide : ¬ (false = true)),
      if_neg (by decide : ¬ (([] : List Nat).length > 10 * 1024 * 1024)),
      if_pos (by decide : (([] : List Nat).isEmpty) = true)]
    simp only [Prod.mk.injEq]
    exact ⟨by decide, trivial⟩
  · intro env ffn content hsize
    simp only [guest_extract_text]
    rw [if_pos hsize]
    decide
  · intro env ffn content hsize
    simp only [guest_extract_text]
    rw [if_neg hsize]
    rfl

/-- Witness for C4_size_checks at an 10MB+1 input and the empty input. -/
theorem C4_witness :
    upload_file envBoom dbDup (some "a.txt") (List.replicate 10485761 0) none 1 0 2 =
      (.error ⟨500, "400: File size exceeds 10MB limit."⟩, dbDup) ∧
    upload_file envBoom dbDup (some "a.txt") [] none 1 0 2 =
      (.error ⟨500, "400: Empty file uploaded."⟩, dbDup) ∧
    guest_extract_text envBoom (some "a.txt") (List.replicate 10485761 0) =
      .error ⟨500, "400: File size exceeds 10MB limit."⟩ ∧
    guest_extract_text envText (some "b.txt") [] =
      .ok ⟨extract_text_from_file envText []
             (if pyFalsyStr (some "b.txt") then "uploaded_file" else (some "b.txt").getD ""),
           if pyFalsyStr (some "b.txt") then "uploaded_file" else (some "b.txt").getD "",
           ([] : List Nat).length,
           (extract_text_from_file envText []
             (if pyFalsyStr (some "b.txt") then "uploaded_file" else (some "b.txt").getD "")).length⟩ :=
  ⟨C4_size_checks.1 envBoom dbDup (some "a.txt") (List.replicate 10485761 0) none 1 0 2
     (by decide) (by decide) (by decide) (by norm_num [List.length_replicate]),
   C4_size_checks.2.1 envBoom dbDup (some "a.txt") none 1 0 2 (by decide) (by decide) (by decide),
   C4_size_checks.2.2.1 envBoom (some "a.txt") (List.replicate 10485761 0)
     (by norm_num [List.length_replicate]),
   C4_size_checks.2.2.2 envText (some "b.txt") [] (by decide)⟩

/-! ## Claim C7 -/

/-- Claim C7: the assembled context renders each document as the header
line followed by its full content, consecutive rendered documents are
joined by a blank line (the two-newline separator of the join), and the
provenance list carries (id, filename) in exactly the input order; the
spec's concrete two-document example is included. -/
theorem C7_context_assembly :
    (∀ docs : List DocRec, (buildContextParts docs).2 = docs.map (fun d => (d.id, d.filename))) ∧
    (∀ docs : List DocRec, (buildContextParts docs).1 =
       docs.map (fun d => "--- Document: " ++ d.filename ++ " ---\n" ++ d.content)) ∧
    pyJoin "\n\n" (buildContextParts
        [⟨1, 1, "a.txt", "X", "t", 0⟩, ⟨2, 1, "b.txt", "Y", "t", 0⟩]).1 =
      "--- Document: a.txt ---\nX\n\n--- Document: b.txt ---\nY" ∧
    (buildContextParts [⟨1, 1, "a.txt", "X", "t", 0⟩, ⟨2, 1, "b.txt", "Y", "t", 0⟩]).2 =
      [(1, "a.txt"), (2, "b.txt")] :=
  ⟨buildContextParts_snd, buildContextParts_fst, by decide, by decide⟩

/-! ## Claim C8 -/

/-- the enumerate-and-filter loop agrees with the spec-side
characterization for any starting index. -/
theorem pdfParts_eq : ∀ (pages : List (Option String)) (i : Nat),
    pdfParts pages i = ((List.enumFrom i pages).filterMap pdfKeep).map pdfFmt
  | [], _ => rfl
  | p :: rest, i => by
    have ih := pdfParts_eq rest (i + 1)
    cases p with
    | none => simp [pdfParts, List.enumFrom, List.filterMap_cons, pdfKeep, ih]
    | some t =>
      by_cases ht : pyStrip t ≠ ""
      · simp [pdfParts, List.enumFrom, List.filterMap_cons, pdfKeep, ht, ih, pdfFmt]
      · simp [pdfParts, List.enumFrom, List.filterMap_cons, pdfKeep, ht, ih]

/-- Claim C8: PDF extraction renders exactly one page block per page
with non-blank extractable text, numbered by the page's original
position plus one, and skips blank or missing pages; a sniffed 3-page
PDF with text on pages 1 and 3 only yields exactly the blocks numbered
1 and 3. -/
theorem C8_pdf_page_blocks :
    (∀ pages, pdfRender pages = pyStrip (pyJoin "" ((pdfBlocksSpec pages).map pdfFmt))) ∧
    pdfBlocksSpec [some "Alpha", some " ", some "Gamma"] = [(1, "Alpha"), (3, "Gamma")] ∧
    extract_text_from_file envPdf3 [1] "doc.pdf" =
      "--- Page 1 ---\nAlpha\n\n--- Page 3 ---\nGamma" := by
  refine ⟨?_, by decide, by decide⟩
  intro pages
  unfold pdfRender pdfBlocksSpec
  rw [pdfParts_eq]
  rfl

/-! ## Claim C9 -/

theorem mem_insertDesc {x t : ChatTurnRec} {l : List ChatTurnRec} :
    x ∈ insertDesc t l ↔ x = t ∨ x ∈ l := by
  induction l with
  | nil => simp [insertDesc]
  | cons h rest ih =>
    unfold insertDesc
    split
    · simp [List.mem_cons]
    · simp only [List.mem_cons, ih]
      tauto

theorem pairwise_insertDesc {t : ChatTurnRec} {l : List ChatTurnRec}
    (hl : l.Pairwise (fun a b => b.created_at ≤ a.created_at)) :
    (insertDesc t l).Pairwise (fun a b => b.created_at ≤ a.created_at) := by
  induction l with
  | nil => simp [insertDesc]
  | cons h rest ih =>
    obtain ⟨hh, hrest⟩ := List.pairwise_cons.mp hl
    unfold insertDesc
    split
    · rename_i hle
      refine List.pairwise_cons.mpr ⟨?_, hl⟩
      intro x hx
      rcases List.mem_cons.mp hx with rfl | hx'
      · exact hle
      · exact le_trans (hh x hx') hle
    · rename_i hgt
      refine List.pairwise_cons.mpr ⟨?_, ih hrest⟩
      intro x hx
      rcases mem_insertDesc.mp hx with rfl | hx'
      · exact le_of_not_le hgt
      · exact hh x hx'

theorem mem_sortDescCreated {x : ChatTurnRec} {l : List ChatTurnRec} :
    x ∈ sortDescCreated l ↔ x ∈ l := by
  induction l with
  | nil => simp [sortDescCreated]
  | cons t rest ih => simp [sortDescCreated, mem_insertDesc, ih, List.mem_cons]

theorem pairwise_sortDescCreated (l : List ChatTurnRec) :
    (sortDescCreated l).Pairwise (fun a b => b.created_at ≤ a.created_at) := by
  induction l with
  | nil => simp [sortDescCreated]
  | cons t rest ih => exact pairwise_insertDesc ih

/-- Claim C9: the chat-history endpoint returns at most 50 turns, every
returned turn belongs to the requesting owner, and after the handler's
reversal of the newest-first LIMIT 50 query the turns are ordered
oldest-first. -/
theorem C9_chat_history : ∀ (db : Db) (uid : Int),
    get_chat_history db uid = .ok (chatHistoryRows db uid) ∧
    (chatHistoryRows db uid).length ≤ 50 ∧
    (∀ t, t ∈ chatHistoryRows db uid → t.user_id = uid) ∧
    (chatHistoryRows db uid).Pairwise (fun a b => a.created_at ≤ b.created_at) := by
  intro db uid
  refine ⟨rfl, ?_, ?_, ?_⟩
  · unfold chatHistoryRows
    rw [List.length_reverse, List.length_take]
    exact min_le_left _ _
  · intro t ht
    unfold chatHistoryRows at ht
    rw [List.mem_reverse] at ht
    have h1 := List.mem_of_mem_take ht
    have h2 := mem_sortDescCreated.mp h1
    obtain ⟨_, hbeq⟩ := List.mem_filter.mp h2
    simpa using hbeq
  · unfold chatHistoryRows
    rw [List.pairwise_reverse]
    exact List.Pairwise.sublist (List.take_sublist _ _) (pairwise_sortDescCreated _)

/-- Witness for C9_chat_history membership at a one-turn history. -/
theorem C9_witness : (⟨1, 1, "m", "r", "[]", 5⟩ : ChatTurnRec).user_id = 1 :=
  (C9_chat_history dbH 1).2.2.1 ⟨1, 1, "m", "r", "[]", 5⟩ (by decide)

/-! ## Claim C10 -/

/-- under the primary-key invariant, at most one stored document matches
a given (id, user_id) pair. -/
theorem length_filter_matching_le_one (did uid : Int) :
    ∀ (l : List DocRec), (l.map (fun d => d.id)).Nodup →
      (l.filter (fun d => d.id == did && d.user_id == uid)).length ≤ 1
  | [], _ => by simp
  | d :: rest, hnd => by
    rw [List.map_cons, List.nodup_cons] at hnd
    obtain ⟨hni, hnd'⟩ := hnd
    rw [List.filter_cons]
    split
    · rename_i hpred
      simp only [Bool.and_eq_true, beq_iff_eq] at hpred
      have hrest : rest.filter (fun d => d.id == did && d.user_id == uid) = [] := by
        rw [List.filter_eq_nil_iff]
        intro x hx hpx
        simp only [Bool.and_eq_true, beq_iff_eq] at hpx
        exact hni (List.mem_map.mpr ⟨x, hx, hpx.1.trans hpred.1.symm⟩)
      rw [hrest]
      simp
    · exact length_filter_matching_le_one did uid rest hnd'

/-- Claim C10: deleting a document by id on behalf of a caller leaves
the users and chat-history collections untouched, removes only
documents (the result is a sublist), keeps every document whose id or
owner differs, and — under the primary-key uniqueness of document
ids — removes at most one record. -/
theorem C10_delete_frame : ∀ (db : Db) (did uid : Int),
    (delete_document db did uid).2.users = db.users ∧
    (delete_document db did uid).2.chat_history = db.chat_history ∧
    (delete_document db did uid).2.documents.Sublist db.documents ∧
    (∀ d, d ∈ db.documents → (d.id ≠ did ∨ d.user_id ≠ uid) →
       d ∈ (delete_document db did uid).2.documents) ∧
    ((db.documents.map (fun d => d.id)).Nodup →
       db.documents.length ≤ (delete_document db did uid).2.documents.length + 1) := by
  intro db did uid
  simp only [delete_document]
  split
  · exact ⟨rfl, rfl, List.Sublist.refl _, fun d hd _ => hd, fun _ => Nat.le_succ_of_le (Nat.le_refl _)⟩
  · refine ⟨rfl, rfl, List.filter_sublist _, ?_, ?_⟩
    · intro d hd hne
      apply List.mem_filter.mpr
      refine ⟨hd, ?_⟩
      rcases hne with h | h <;> simp [h]
    · intro hnd
      have hle := length_filter_matching_le_one did uid db.documents hnd
      have heq := List.length_eq_length_filter_add
        (l := db.documents) (fun d => d.id == did && d.user_id == uid)
      show db.documents.length ≤
        (List.filter (fun d => !(d.id == did && d.user_id == uid)) db.documents).length + 1
      omega

/-- Witness for C10_delete_frame: deleting document 1 of user 1 keeps
the other document, and removes at most one record. -/
theorem C10_witness :
    (⟨2, 1, "b.txt", "Y", "t", 0⟩ : DocRec) ∈ (delete_document dbDel 1 1).2.documents ∧
    dbDel.documents.length ≤ (delete_document dbDel 1 1).2.documents.length + 1 :=
  ⟨(C10_delete_frame dbDel 1 1).2.2.2.1 ⟨2, 1, "b.txt", "Y", "t", 0⟩ (by decide) (by decide),
   (C10_delete_frame dbDel 1 1).2.2.2.2 (by decide)⟩
